import Mathlib

/-!
Verification development for the icloudds synchronizer.

Shallow embedding of the parts of the code the claims speak about:
  * path utilities mirroring `pathlib.PurePosixPath` on normalized
    root-relative paths (`pathParts`, `isRelativeTo`, `parentPath`);
  * the path map of `BaseTree` (a `ThreadSafePathDict`, i.e. an
    insertion-ordered dictionary keyed by normalized path strings),
    embedded as an association list `List (String × V)`;
  * `BaseTree.ignore` / the filter sets built in `BaseTree.__init__`;
  * `BaseTree.re_key` (note: the Python code computes the new key with
    `str.replace`, which substitutes every occurrence of the substring);
  * the event pipeline of `EventHandler`: `_enqueue`, the per-path
    selection rule of `_coalesce_events`, `_conflate_folder_events`;
  * `EventHandler._handle_file_modified` as a decision function;
  * `BaseInfo._round_seconds` / `LocalFileInfo.__post_init__`;
  * `EventHandler._handle_action_result` together with the retry-argument
    convention of the `ICloudTree` operations;
  * the count-consistency check of `ICloudTree.refresh` and the path-map
    transitions of `ICloudTree.delete` / `rename` / `move`.
-/

namespace Icloudds

/-! ## Path utilities

Paths in the trees are root-relative POSIX-normalized strings (the
`ThreadSafePathDict` normalizes every key through `str(Path(key))`).
`pathParts` mirrors `PurePosixPath.parts` on such strings: split on the
separator and drop empty and `"."` components (so the root `"."` has no
parts).  `isRelativeTo` mirrors `PurePosixPath.is_relative_to`:
component-list prefixing.  `parentPath` mirrors `PurePosixPath.parent`.
-/

/-- Split a character list on the slash separator. -/
def splitSlash : List Char → List (List Char)
  | [] => [[]]
  | c :: rest =>
    if c = '/' then [] :: splitSlash rest
    else
      match splitSlash rest with
      | [] => [[c]]
      | g :: gs => (c :: g) :: gs

/-- Components of a normalized relative path (mirrors `PurePosixPath.parts`). -/
def pathParts (s : String) : List String :=
  ((splitSlash s.data).filter (fun g => g ≠ [] ∧ g ≠ ['.'])).map (fun g => ⟨g⟩)

/-- Mirrors `PurePosixPath.is_relative_to`: `q`'s components are a prefix of
`p`'s components (so it also holds when `p = q`). -/
def isRelativeTo (p q : String) : Bool :=
  (pathParts q).isPrefixOf (pathParts p)

/-- Join path components back into a normalized path, the empty list giving
the root path. -/
def joinParts : List String → String
  | [] => "."
  | [p] => p
  | p :: ps => p ++ "/" ++ joinParts ps

/-- Mirrors `PurePosixPath.parent` on normalized relative paths. -/
def parentPath (s : String) : String :=
  joinParts (pathParts s).dropLast

/-! ## The path map

`ThreadSafePathDict` is a Python `dict` from normalized path strings to
info records: lookup finds the unique entry for a key, `pop` removes it,
`d[k] = v` updates in place when `k` is present and appends otherwise,
and iteration follows insertion order.  We embed it as an association
list whose well-formed instances have no duplicate keys.
-/

/-- Dictionary lookup (`d.get(k)`). -/
def lookupK {V : Type} (m : List (String × V)) (k : String) : Option V :=
  match m with
  | [] => none
  | kv :: rest => if kv.1 = k then some kv.2 else lookupK rest k

/-- Key membership (`k in d`). -/
def containsK {V : Type} (m : List (String × V)) (k : String) : Bool :=
  (lookupK m k).isSome

/-- Dictionary removal (`d.pop(k)`): removes the first entry with key `k`. -/
def popK {V : Type} (m : List (String × V)) (k : String) : List (String × V) :=
  match m with
  | [] => []
  | kv :: rest => if kv.1 = k then rest else kv :: popK rest k

/-- Dictionary assignment (`d[k] = v`): update in place when present,
append when absent. -/
def setK {V : Type} (m : List (String × V)) (k : String) (v : V) : List (String × V) :=
  match m with
  | [] => [(k, v)]
  | kv :: rest => if kv.1 = k then (k, v) :: rest else kv :: setK rest k v

/-- Keys of the map, in insertion order. -/
def keysOf {V : Type} (m : List (String × V)) : List String :=
  m.map Prod.fst

/-- Values of the map, in insertion order. -/
def valuesOf {V : Type} (m : List (String × V)) : List V :=
  m.map Prod.snd

/-- `BaseTree.prune(path)` with the default `inclusive=True`: pop every key
that equals `path` or descends from it. -/
def pruneMap {V : Type} (m : List (String × V)) (p : String) : List (String × V) :=
  m.filter (fun kv => !(isRelativeTo kv.1 p))

/-! ## String replacement

`BaseTree.re_key` computes each new key with Python's
`k.replace(str(old_path), str(new_path))`, which replaces every
non-overlapping occurrence of the pattern, scanning left to right.
`replaceAllChars` embeds exactly that (for the non-empty patterns the
code passes). -/

/-- Replace every non-overlapping occurrence of `pat` by `rep`, scanning
left to right (Python `str.replace`).  The recursion is fueled by the
length of the scanned list — every step consumes at least one character,
so fuel equal to the initial length never runs out. -/
def replaceAllChars (pat rep : List Char) : Nat → List Char → List Char
  | _, [] => []
  | 0, l => l
  | fuel + 1, c :: rest =>
    if pat.isPrefixOf (c :: rest) then
      rep ++ replaceAllChars pat rep fuel (List.drop (pat.length - 1) rest)
    else
      c :: replaceAllChars pat rep fuel rest

/-- Python `k.replace(pat, rep)` on strings. -/
def replaceAll (s pat rep : String) : String :=
  ⟨replaceAllChars pat.data rep.data s.data.length s.data⟩

/-- Substring occurrence test: does `pat` occur inside `l`? -/
def subOcc (pat : List Char) : List Char → Bool
  | [] => pat.isEmpty
  | c :: rest => pat.isPrefixOf (c :: rest) || subOcc pat rest

/-- Substring occurrence test on strings. -/
def strContainsSub (s pat : String) : Bool :=
  subOcc pat.data s.data

/-! ## BaseTree.re_key

```python
def re_key(self, old_path, new_path):
    for k in list(self.keys()):
        p = Path(k)
        if p.is_relative_to(old_path):
            new_key = k.replace(str(old_path), str(new_path))
            with self._root as root:
                if k in root:
                    self._root[new_key] = self._root.pop(k)
```
The loop runs over a snapshot of the keys taken before any mutation; we
take the snapshot in insertion order (Python's `keys()` returns a set
whose order is unspecified). -/

/-- One iteration of the `re_key` loop for snapshot key `k`. -/
def reKeyStep {V : Type} (old new : String) (m : List (String × V)) (k : String) :
    List (String × V) :=
  if isRelativeTo k old then
    match lookupK m k with
    | some v => setK (popK m k) (replaceAll k old new) v
    | none => m
  else m

/-- `BaseTree.re_key(old_path, new_path)` acting on the embedded map. -/
def re_key {V : Type} (old new : String) (m : List (String × V)) : List (String × V) :=
  (keysOf m).foldl (reKeyStep old new) m

/-! ## Filter sets and `BaseTree.ignore`

`BaseTree.__init__` compiles two hard-coded ignore regexes followed by
the user-supplied ignore regexes, and the user-supplied include regexes
(no built-in includes).  Each compiled regex is used only through
`re.match(regex, path.as_posix())`, so we embed a compiled regex as the
boolean matching function it induces on path strings.  The two built-in
patterns are `.*\.com-apple-bird.*` and `.*\.DS_Store`: under `re.match`
a leading `.*` makes the pattern an unanchored search and a trailing
unmatched remainder is allowed, so on newline-free paths both are
exactly substring tests. -/

/-- Matcher of the built-in pattern `.*\.com-apple-bird.*`. -/
def builtinBird (s : String) : Bool :=
  strContainsSub s ".com-apple-bird"

/-- Matcher of the built-in pattern `.*\.DS_Store`. -/
def builtinDSStore (s : String) : Bool :=
  strContainsSub s ".DS_Store"

/-- The compiled ignore and include regex lists of a `BaseTree`. -/
structure FilterSet where
  ignoreRegexes : List (String → Bool)
  includeRegexes : List (String → Bool)

/-- `BaseTree.__init__`: built-in ignores first, then the user ignores;
includes are the user includes only. -/
def mkFilter (userIgnores userIncludes : List (String → Bool)) : FilterSet :=
  { ignoreRegexes := builtinBird :: builtinDSStore :: userIgnores
  , includeRegexes := userIncludes }

/-- `BaseTree.ignore(path)`:

```python
for regex in self._ignore_regexes:
    if re.match(regex, path.as_posix()):
        return True
if not self._includes_regexes:
    return False
for regex in self._includes_regexes:
    if re.match(regex, path.as_posix()):
        return False
return True
``` -/
def ignore (f : FilterSet) (p : String) : Bool :=
  if f.ignoreRegexes.any (fun r => r p) then true
  else if f.includeRegexes.isEmpty then false
  else if f.includeRegexes.any (fun r => r p) then false
  else true

/-! ## Events and the pipeline

The `ICDS*` event classes are direct siblings under `ICDSSystemEvent`
(no cross-inheritance), so every `isinstance` test in the pipeline is a
test on the event's kind. -/

/-- Kinds of pipeline events. -/
inductive EvKind where
  | fileCreated
  | fileModified
  | fileMoved
  | fileDeleted
  | folderCreated
  | folderModified
  | folderMoved
  | folderDeleted
  | icloudFolderModified
  deriving DecidableEq, Repr

/-- An `ICDSSystemEvent`: kind, source path, optional destination path. -/
structure Ev where
  kind : EvKind
  src : String
  dest : Option String
  deriving DecidableEq, Repr

/-- A `QueuedEvent`: wall-clock timestamp paired with the event. -/
structure QEv where
  timestamp : Nat
  event : Ev
  deriving DecidableEq, Repr

/-- `ICDSFileDeletedEvent` or `ICDSFolderDeletedEvent`. -/
def isDeleteK : EvKind → Bool
  | .fileDeleted | .folderDeleted => true
  | _ => false

/-- `ICDSFileMovedEvent` or `ICDSFolderMovedEvent` (the `any` guard of the
move branch of `_coalesce_events`). -/
def isMoveK : EvKind → Bool
  | .fileMoved | .folderMoved => true
  | _ => false

/-- `ICDSFileMovedEvent` or `ICDSFolderModifiedEvent`: the tuple the move
branch of `_coalesce_events` actually searches for when choosing the
final event. -/
def moveSelK : EvKind → Bool
  | .fileMoved | .folderModified => true
  | _ => false

/-- `ICDSFileCreatedEvent` or `ICDSFolderCreatedEvent`. -/
def isCreateK : EvKind → Bool
  | .fileCreated | .folderCreated => true
  | _ => false

/-- Insert into a timestamp-sorted list after all entries with an equal or
smaller timestamp (the stable placement of Python's `list.sort`). -/
def insertByTS (x : QEv) : List QEv → List QEv
  | [] => [x]
  | y :: ys => if y.timestamp ≤ x.timestamp then y :: insertByTS x ys else x :: y :: ys

/-- Stable sort by timestamp (`evs.sort(key=lambda e: e.timestamp)`). -/
def sortByTS (l : List QEv) : List QEv :=
  l.foldl (fun acc x => insertByTS x acc) []

/-- `next(e for e in reversed(evs) if pred(e))` as an `Option`. -/
def findLastSat (p : QEv → Bool) (l : List QEv) : Option QEv :=
  l.reverse.find? p

/-- The per-path selection rule of `EventHandler._coalesce_events` applied
to one path's event list (already sorted by timestamp):

```python
final = evs[-1]
if any(isinstance(e.event, (FileDeleted, FolderDeleted)) for e in evs):
    final = next(e for e in reversed(evs) if isinstance(e.event, (FileDeleted, FolderDeleted)))
elif any(isinstance(e.event, (FileMoved, FolderMoved)) for e in evs):
    try:
        final = next(e for e in reversed(evs) if isinstance(e.event, (FileMoved, FolderModified)))
    except StopIteration:
        pass
elif isinstance(evs[0].event, (FileCreated, FolderCreated)):
    final = evs[0]
``` -/
def selectFinal (evs : List QEv) : Option QEv :=
  match evs.getLast? with
  | none => none
  | some lastE =>
    if evs.any (fun e => isDeleteK e.event.kind) then
      match findLastSat (fun e => isDeleteK e.event.kind) evs with
      | some e => some e
      | none => some lastE
    else if evs.any (fun e => isMoveK e.event.kind) then
      match findLastSat (fun e => moveSelK e.event.kind) evs with
      | some e => some e
      | none => some lastE
    else
      match evs.head? with
      | none => none
      | some h => if isCreateK h.event.kind then some h else some lastE

/-- Coalescing for one `src_path` group: sort the group's events by
timestamp, then apply the selection rule. -/
def coalescePerPath (evs : List QEv) : Option QEv :=
  selectFinal (sortByTS evs)

/-- The inner nested-check loop of `_conflate_folder_events` for one
queued folder event `qe`:

```python
is_nested = False
for other_qe in folder_evs:
    if qe is other_qe:
        continue
    other_src = Path(other_qe.event.src_path)
    if src_path != other_src:
        if src_path.is_relative_to(other_src):
            is_nested = True
        break
if is_nested: ...
```
The `break` sits inside `if src_path != other_src`, so the loop decides
on the first other folder event whose source differs.  Object identity
(`is`) is embedded as value equality; the lists the handler feeds in
hold one event per path, where the two coincide. -/
def conflNested (qe : QEv) : List QEv → Bool
  | [] => false
  | o :: rest =>
    if o = qe then conflNested qe rest
    else if o.event.src ≠ qe.event.src then isRelativeTo qe.event.src o.event.src
    else conflNested qe rest

/-- The file-coverage loop of `_conflate_folder_events`: a file-level event
is covered when its source equals, or descends from, the source of some
folder event of the pass. -/
def isCoveredBy (folderEvs : List QEv) (qe : QEv) : Bool :=
  folderEvs.any (fun o => qe.event.src == o.event.src || isRelativeTo qe.event.src o.event.src)

/-- The file-level kinds the coverage filter tests for
(`ICDSFileMovedEvent`, `ICDSFileCreatedEvent`, `ICDSFileDeletedEvent`). -/
def fileLevelK : EvKind → Bool
  | .fileMoved | .fileCreated | .fileDeleted => true
  | _ => false

/-- `EventHandler._conflate_folder_events(events, cls)` for
`cls ∈ {ICDSFolderDeletedEvent, ICDSFolderMovedEvent}`. -/
def conflateFolderEvents (cls : EvKind) (events : List QEv) : List QEv :=
  let folderEvs := events.filter (fun qe => qe.event.kind == cls)
  if folderEvs.isEmpty then events
  else
    events.filter (fun qe =>
      !((qe.event.kind == cls) && conflNested qe folderEvs)
        && !(fileLevelK qe.event.kind && isCoveredBy folderEvs qe))

/-! ## EventHandler._enqueue

```python
if event.src_path in self._suppressed_paths:
    return
if self._local.ignore(event.src_path) or self._icloud.ignore(event.src_path):
    return
if event.dest_path:
    if self._local.ignore(event.dest_path) or self._icloud.ignore(event.dest_path):
        return
queue.put(QueuedEvent(timestamp=time(), event=event))
```
Only the source path is tested against the suppressed set; the
destination path is tested against the filters alone. -/

/-- `EventHandler._enqueue` acting on the embedded queue. -/
def enqueue (suppressed : List String) (fLocal fIcloud : FilterSet)
    (now : Nat) (q : List QEv) (e : Ev) : List QEv :=
  if suppressed.contains e.src then q
  else if ignore fLocal e.src || ignore fIcloud e.src then q
  else
    match e.dest with
    | some d =>
      if ignore fLocal d || ignore fIcloud d then q
      else q ++ [⟨now, e⟩]
    | none => q ++ [⟨now, e⟩]

/-- The drop condition the enqueue rule actually implements: source path
suppressed, source path ignored by either filter, or destination path
present and ignored by either filter. -/
def enqueueDrops (suppressed : List String) (fLocal fIcloud : FilterSet) (e : Ev) : Bool :=
  suppressed.contains e.src
    || ignore fLocal e.src || ignore fIcloud e.src
    || (match e.dest with
        | some d => ignore fLocal d || ignore fIcloud d
        | none => false)

/-! ## EventHandler._handle_file_modified

The handler first calls `self._local.add(path)` (whose result is the
`lfi` argument below), returns when that is `None`, then reads the
remote parent and the remote entry and decides:

```python
if cfi is not None:
    if (lfi.modified_time > cfi.modified_time) and lfi.size > 0:
        pass                       # fall through
    else:
        return                     # skip
if parent is None:
    self._handle_folder_created(...)
cfi = self._icloud.get(event.src_path, None)
if cfi is None or (lfi.modified_time > cfi.modified_time) and lfi.size > 0:
    submit upload on the single-worker (serial) pool
```
`or` binds looser than `and` in Python, so the upload fires whenever the
remote entry is absent, regardless of the local mtime and size.  The
re-read of `cfi` returns the same entry in this sequential embedding
(the mkdir work is only submitted to a pool). -/

/-- Worker pools of the handler: `_limited_threadpool` has one worker
(serial), `_unlimited_threadpool` has many (parallel). -/
inductive Pool where
  | serial
  | parallel
  deriving DecidableEq, Repr

/-- The fields of a `LocalFileInfo` the handler reads. -/
structure LFI where
  size : Int
  mtime : Int
  deriving DecidableEq, Repr

/-- The field of a remote `ICloudFileInfo` the handler reads. -/
structure CFI where
  mtime : Int
  deriving DecidableEq, Repr

/-- What the handler did: whether `local.add` ran, whether a mkdir chain
was submitted, and whether (and to which pool) an upload was submitted. -/
structure FMDecision where
  localAddCalled : Bool
  mkdirSubmitted : Bool
  uploadSubmitted : Bool
  uploadPool : Option Pool
  deriving DecidableEq, Repr

/-- The decision taken after the first guard of `_handle_file_modified`
(reached with the remote entry `cfi` and local info `l`). -/
def fmAfterGuard (l : LFI) (parent : Option Unit) (cfi : Option CFI) : FMDecision :=
  { localAddCalled := true
  , mkdirSubmitted := parent.isNone
  , uploadSubmitted :=
      match cfi with
      | none => true
      | some c => decide (l.mtime > c.mtime) && decide (l.size > 0)
  , uploadPool :=
      match cfi with
      | none => some .serial
      | some c => if decide (l.mtime > c.mtime) && decide (l.size > 0) then some .serial else none }

/-- `EventHandler._handle_file_modified` as a decision function of the
result `lfi` of `local.add`, the remote parent lookup and the remote
entry lookup. -/
def handleFileModified (lfi : Option LFI) (parent : Option Unit) (cfi : Option CFI) :
    FMDecision :=
  match lfi with
  | none => { localAddCalled := true, mkdirSubmitted := false
            , uploadSubmitted := false, uploadPool := none }
  | some l =>
    match cfi with
    | some c =>
      if decide (l.mtime > c.mtime) && decide (l.size > 0) then fmAfterGuard l parent cfi
      else { localAddCalled := true, mkdirSubmitted := false
           , uploadSubmitted := false, uploadPool := none }
    | none => fmAfterGuard l parent cfi

/-! ## BaseInfo._round_seconds and LocalFileInfo.__post_init__

```python
if platform.system() == "Linux":
    if dt.microsecond >= 500000:
        dt += timedelta(seconds=1)
    return dt.replace(microsecond=0)
if platform.system() == "Darwin":
    return dt.replace(microsecond=0)
return dt
```
On any platform other than Linux and Darwin the timestamp is returned
unchanged, microseconds included. -/

/-- Value of `platform.system()` as the rounding code distinguishes it. -/
inductive Platform where
  | linux
  | darwin
  | other
  deriving DecidableEq, Repr

/-- A UTC timestamp split into whole seconds and microseconds, as the
rounding code reads `datetime`. -/
structure MicroTime where
  sec : Int
  micro : Nat
  deriving DecidableEq, Repr

/-- `BaseInfo._round_seconds`. -/
def round_seconds (plat : Platform) (dt : MicroTime) : MicroTime :=
  match plat with
  | .linux =>
    if dt.micro ≥ 500000 then { sec := dt.sec + 1, micro := 0 }
    else { sec := dt.sec, micro := 0 }
  | .darwin => { sec := dt.sec, micro := 0 }
  | .other => dt

/-- The fields of `os.stat_result` that `LocalFileInfo.__post_init__`
reads. -/
structure StatResult where
  st_size : Int
  st_mtime : MicroTime
  st_birthtime : Option MicroTime
  st_ctime : MicroTime
  deriving DecidableEq, Repr

/-- The stored fields of a `LocalFileInfo`. -/
structure MLocalFileInfo where
  size : Int
  modified_time : MicroTime
  created_time : MicroTime
  deriving DecidableEq, Repr

/-- `LocalFileInfo.__post_init__`: size from the stat entry, creation time
from `st_birthtime` when available else `st_ctime`, both times passed
through `_round_seconds`. -/
def localFileInfoOfStat (plat : Platform) (st : StatResult) : MLocalFileInfo :=
  { size := st.st_size
  , modified_time := round_seconds plat st.st_mtime
  , created_time :=
      round_seconds plat (match st.st_birthtime with | some b => b | none => st.st_ctime) }

/-- Spec-side description of the rounding rule, for comparison: add half a
second, carrying into the seconds. -/
def addHalfSec (dt : MicroTime) : MicroTime :=
  if dt.micro + 500000 ≥ 1000000 then
    { sec := dt.sec + 1, micro := dt.micro + 500000 - 1000000 }
  else
    { sec := dt.sec, micro := dt.micro + 500000 }

/-- Spec-side description of truncation to whole seconds. -/
def truncateMT (dt : MicroTime) : MicroTime :=
  { sec := dt.sec, micro := 0 }

/-! ## The retry model

Each failing `ICloudTree` operation called with retry budget `retry`
returns a failed result whose `args` end in `retry - 1`;
`EventHandler._handle_action_result` reads that last argument back:

```python
if not result.success:
    if result.fn is not None:
        retry = result.args[-1]
        if retry > 0:
            pool = unlimited if isinstance(result, Download) else limited
            pool.submit(result.fn, *result.args)
        else:
            log giving up
```
Successful results are never resubmitted (the success branch only
enqueues `ICloudFolderModifiedEvent` rescan hints for Upload, Rename and
Move, which is outside this model). -/

/-- Kinds of `ActionResult` the retry logic distinguishes. -/
inductive AKind where
  | upload
  | download
  | delete
  | rename
  | move
  | mkdir
  deriving DecidableEq, Repr

/-- The fields of an `ActionResult` the retry logic reads: the subclass,
the success flag, whether a retry closure is attached, and the last
element of `args` (the remaining-retries count stored by the failing
operation). -/
structure MActionResult where
  kind : AKind
  success : Bool
  hasFn : Bool
  retries : Int
  deriving DecidableEq, Repr

/-- Outcome of one invocation of an `ICloudTree` operation with retry
budget `retry`: on failure the generic exception branch attaches the
retry closure with `args` ending in `retry - 1`; on success no closure
is attached. -/
def attemptResult (k : AKind) (fails : Bool) (retry : Int) : MActionResult :=
  if fails then { kind := k, success := false, hasFn := true, retries := retry - 1 }
  else { kind := k, success := true, hasFn := false, retries := 0 }

/-- `EventHandler._handle_action_result`, restricted to its resubmission
decision: `some (pool, n)` resubmits the closure (which will run with
retry budget `n`) on `pool`; `none` resubmits nothing. -/
def handleActionResult (r : MActionResult) : Option (Pool × Int) :=
  if r.success then none
  else if r.hasFn then
    if r.retries > 0 then
      some ((if r.kind = .download then Pool.parallel else Pool.serial), r.retries)
    else none
  else none

/-! ## ICloudTree.refresh count consistency

After the walk, `refresh` recomputes the leaf-file totals and raises
`MismatchException` precisely when

```python
self._root_count() != root_files_count + trash_files_count
```
with `_root_count()` returning `self._root["."].file_count` (and `0`
when the root record is missing); the trash folder's own counters play
no part in the check.  The `except MismatchException` handler turns the
raise into `succeeded = False`.

After the handlers and the completion logging, the final lines of
`refresh` are

```python
self._remove_ignored_items()
return succeeded
```
and `_remove_ignored_items` is defined neither by this revision's
`ICloudTree` nor by its parent `BaseTree` (only the unimported parallel
revision `iCloudTree.py` defines such a method), so every call to
`refresh` raises `AttributeError` on that line, outside every `except`
of the function, and `return succeeded` is never reached. -/

/-- A remote tree record: a leaf file, or a folder with the `fileCount`
and `numberOfItems` counters of its `DriveNode`. -/
inductive RInfo where
  | file
  | folder (fileCount : Int) (numberOfItems : Int)
  deriving DecidableEq, Repr

/-- Is the record a leaf file? -/
def isFileInfo : RInfo → Bool
  | .file => true
  | .folder _ _ => false

/-- `sum(1 for _ in self.files(...))`: the number of leaf-file entries of
a tree map. -/
def filesCount (m : List (String × RInfo)) : Int :=
  ((m.filter (fun kv => isFileInfo kv.2)).length : Int)

/-- `ICloudTree._root_count()`: the `fileCount` counter of the root record
`"."`, or `0` when absent (the root record is always a folder). -/
def rootFileCount (m : List (String × RInfo)) : Int :=
  match lookupK m "." with
  | some (.folder fc _) => fc
  | _ => 0

/-- The `fileCount` counter of a tree's root record (used to state what
the claim calls `trash.file_count`). -/
def treeFileCountField (m : List (String × RInfo)) : Int :=
  rootFileCount m

/-- The mismatch check of `ICloudTree.refresh` as an exception. -/
inductive RefreshErr where
  | mismatch
  deriving DecidableEq, Repr

/-- The count-consistency check of `ICloudTree.refresh` over the built
root and trash maps. -/
def refreshCountCheck (root trash : List (String × RInfo)) : Except RefreshErr Unit :=
  if rootFileCount root ≠ filesCount root + filesCount trash then .error .mismatch
  else .ok ()

/-- The local `succeeded` flag of `ICloudTree.refresh` after the
try/except block, over the built maps: the `MismatchException` handler
maps the mismatch to `False`.  This is the value the function's
`return succeeded` line would deliver — but see `refreshRun`: the line
before the return raises, so this flag is never reported to a caller. -/
def refreshSucceeded (root trash : List (String × RInfo)) : Bool :=
  match refreshCountCheck root trash with
  | .ok _ => true
  | .error _ => false

/-- Python runtime errors that reach the caller of `refresh`. -/
inductive PyErr where
  | attributeError
  deriving DecidableEq, Repr

/-- The call `self._remove_ignored_items()` at the end of `refresh`: the
attribute is undefined on `ICloudTree` and `BaseTree` in this revision,
so the lookup itself raises `AttributeError`. -/
def removeIgnoredItemsCall : Except PyErr Unit :=
  .error .attributeError

/-- `ICloudTree.refresh()` as its caller observes it: compute the
`succeeded` flag, run `self._remove_ignored_items()` (which raises),
then — were that call to return — report the flag. -/
def refreshRun (root trash : List (String × RInfo)) : Except PyErr Bool :=
  let succeeded := refreshSucceeded root trash
  match removeIgnoredItemsCall with
  | .error e => .error e
  | .ok _ => .ok succeeded

/-! ## ICloudTree.delete / rename / move on the path map

Each operation reads the needed entries, performs the remote call inside
a `try`, and mutates the path map only on the lines after the remote
call; every exception lands in an `except` that returns a failed result
of the operation's kind.  The remote interaction is embedded as a
boolean `raises` oracle. -/

/-- Result of one tree operation, as far as the path map and the retry
logic care: `nil` (guard failed, no remote call), `ok`, or `failed`. -/
inductive MOut where
  | nil
  | ok
  | failed
  deriving DecidableEq, Repr

/-- `ICloudTree.delete(path, ...)`: requires the parent record and the
record at `path`; on remote success pops a file or prunes a folder. -/
def deleteOp (m : List (String × RInfo)) (p : String) (raises : Bool) :
    List (String × RInfo) × MOut :=
  match lookupK m (parentPath p), lookupK m p with
  | some _, some cfi =>
    if raises then (m, .failed)
    else
      match cfi with
      | .folder _ _ => (pruneMap m p, .ok)
      | .file => (popK m p, .ok)
  | _, _ => (m, .nil)

/-- `ICloudTree.rename(old_path, new_path, ...)`: requires the record at
`old_path`; on remote success re-keys the map. -/
def renameOp (m : List (String × RInfo)) (old new : String) (raises : Bool) :
    List (String × RInfo) × MOut :=
  match lookupK m old with
  | some _ =>
    if raises then (m, .failed)
    else (re_key old new m, .ok)
  | none => (m, .nil)

/-- `ICloudTree.move(path, dest_path, ...)`: requires the record at `path`
and the record at `dest_path`'s parent; on remote success pops the entry
and reinserts it at `dest_path`. -/
def moveOp (m : List (String × RInfo)) (p d : String) (raises : Bool) :
    List (String × RInfo) × MOut :=
  match lookupK m p, lookupK m (parentPath d) with
  | some cfi, some _ =>
    if raises then (m, .failed)
    else (setK (popK m p) d cfi, .ok)
  | _, _ => (m, .nil)

/-- The upload condition `_handle_file_modified` actually implements for
an existing local file: remote entry absent, or local strictly newer
with positive size. -/
def uploadFires (l : LFI) (cfi : Option CFI) : Bool :=
  match cfi with
  | none => true
  | some c => decide (l.mtime > c.mtime) && decide (l.size > 0)

/-!
# Theorems

One theorem (plus, where applicable, a counterexample and a witness)
per claim of the specification.
-/

/-- C1: the move branch of `_coalesce_events` guards on
`(ICDSFileMovedEvent, ICDSFolderMovedEvent)` but selects the last event
among `(ICDSFileMovedEvent, ICDSFolderModifiedEvent)`.  On a path with a
`FolderMoved` followed by a `FileModified`, the guard fires, the
selection finds no match, and the `StopIteration` handler leaves the
final event as the plain last event — a `FileModified`, not the last
move, contradicting the stated rule (and the canonical FolderMoved
policy of the specification). -/
theorem coalesce_move_branch_bug_eval :
    coalescePerPath [⟨0, ⟨.folderMoved, "p", some "q"⟩⟩, ⟨1, ⟨.fileModified, "p", none⟩⟩]
      = some ⟨1, ⟨.fileModified, "p", none⟩⟩
    ∧ isMoveK EvKind.folderMoved = true
    ∧ isMoveK EvKind.fileModified = false := by
  refine ⟨?_, rfl, rfl⟩
  decide

/-- C2 counterexample: the claim's biconditional fails in both directions.
On a refresh state satisfying the claim's own consistency equation (one
root leaf file, root `fileCount = 1`, empty trash with `fileCount = 0`)
`refresh` does not report success — it raises `AttributeError` from the
undefined `_remove_ignored_items` before reaching `return succeeded`.
And the internal `succeeded` flag (the value the unreachable return
would deliver) is `true` on a state whose trash root carries
`fileCount = 5`, where the claimed equation
`root.file_count + trash.file_count = total leaf files` fails: the
check compares the recomputed total against the root counter alone. -/
theorem refresh_raises_cex :
    refreshRun [(".", .folder 1 0), ("f", .file)] [(".", .folder 0 0)]
      = .error .attributeError
    ∧ rootFileCount [(".", .folder 1 0), ("f", .file)]
        + treeFileCountField [(".", .folder 0 0)]
      = filesCount [(".", RInfo.folder 1 0), ("f", RInfo.file)]
        + filesCount [(".", RInfo.folder 0 0)]
    ∧ refreshSucceeded [(".", .folder 1 0), ("f", .file)] [(".", .folder 5 3)] = true
    ∧ rootFileCount [(".", .folder 1 0), ("f", .file)]
        + treeFileCountField [(".", .folder 5 3)]
      ≠ filesCount [(".", RInfo.folder 1 0), ("f", RInfo.file)]
        + filesCount [(".", RInfo.folder 5 3)] := by
  refine ⟨rfl, by decide, by decide, by decide⟩

/-- C2 (amended): in this revision `ICloudTree.refresh` never reports
success: every call raises `AttributeError` from the undefined
`_remove_ignored_items()` before `return succeeded` is reached.  The
internal `succeeded` flag that the unreachable return would deliver is
true exactly when the recomputed total-file count — leaf files of the
root tree plus leaf files of the trash tree — equals the root record's
`file_count` alone; the trash counters are not consulted, and a true
flag forces `file_count(root)` to equal the leaf total. -/
theorem refresh_outcome_amended (root trash : List (String × RInfo)) :
    refreshRun root trash = .error .attributeError
    ∧ (refreshSucceeded root trash = true
        ↔ rootFileCount root = filesCount root + filesCount trash)
    ∧ (refreshSucceeded root trash = true →
        rootFileCount root = filesCount root + filesCount trash) := by
  refine ⟨rfl, ?_, ?_⟩ <;>
    unfold refreshSucceeded refreshCountCheck <;>
      by_cases h : rootFileCount root = filesCount root + filesCount trash <;> simp [h]

/-- C2 witness: the amended statement applied to a concrete refresh state
whose internal flag is true — and whose call still raises. -/
theorem refresh_outcome_amended_witness :
    refreshRun [(".", .folder 1 0), ("f", .file)] [(".", .folder 0 0)]
      = .error .attributeError
    ∧ refreshSucceeded [(".", .folder 1 0), ("f", .file)] [(".", .folder 0 0)] = true :=
  ⟨(refresh_outcome_amended [(".", .folder 1 0), ("f", .file)] [(".", .folder 0 0)]).1,
   (refresh_outcome_amended [(".", .folder 1 0), ("f", .file)]
     [(".", .folder 0 0)]).2.1.mpr (by decide)⟩

/-- C3: `re_key("a", "b")` on a map holding the folder `"a"` and the file
`"a/a"` rewrites the child key with `str.replace`, which substitutes
every occurrence of `"a"`, producing `"b/b"` instead of the prefix
rewrite `"b/a"` the claim (and the on-disk rename the map must mirror)
prescribe: the key `"b/a"` is absent from the result. -/
theorem re_key_replace_all_bug_eval :
    re_key "a" "b" [("a", (1 : Nat)), ("a/a", 2)] = [("b", 1), ("b/b", 2)]
    ∧ lookupK (re_key "a" "b" [("a", (1 : Nat)), ("a/a", 2)]) "b/a" = none
    ∧ isRelativeTo "a/a" "a" = true := by
  decide

/-- C4: in `_conflate_folder_events` the `break` of the nested-check loop
sits inside `if src_path != other_src`, so only the first other folder
event with a different source is ever examined.  With `FolderDeleted`
events on `x`, `a` and `a/b` (in that order), the event on `a/b`
strictly descends from the one on `a` yet is kept, because the check
breaks after comparing against `x`. -/
theorem conflate_nested_break_bug_eval :
    conflateFolderEvents .folderDeleted
        [⟨0, ⟨.folderDeleted, "x", none⟩⟩, ⟨1, ⟨.folderDeleted, "a", none⟩⟩,
         ⟨2, ⟨.folderDeleted, "a/b", none⟩⟩]
      = [⟨0, ⟨.folderDeleted, "x", none⟩⟩, ⟨1, ⟨.folderDeleted, "a", none⟩⟩,
         ⟨2, ⟨.folderDeleted, "a/b", none⟩⟩]
    ∧ isRelativeTo "a/b" "a" = true ∧ "a/b" ≠ "a" := by
  decide

/-- C5 counterexample: an event whose destination path `"y"` is in the
suppressed set (and whose source path is neither suppressed nor
ignored) is enqueued by `_enqueue`, where the claim says it is
dropped — the suppressed set is only consulted for the source path. -/
theorem enqueue_dest_suppressed_cex :
    enqueue ["y"] (mkFilter [] []) (mkFilter [] []) 7 [] ⟨.fileMoved, "x", some "y"⟩
      = [⟨7, ⟨.fileMoved, "x", some "y"⟩⟩]
    ∧ "y" ∈ (["y"] : List String) := by
  refine ⟨?_, by decide⟩
  decide

/-- C5 (amended): `_enqueue` drops an incoming event exactly when its
source path is in the suppressed set, its source path is ignored by
either tree's filter, or its destination path is present and ignored by
either tree's filter (the destination path is never tested against the
suppressed set); in every other case it appends the event paired with
the current wall-clock timestamp to the queue. -/
theorem enqueue_rule_amended (suppressed : List String) (fL fI : FilterSet)
    (now : Nat) (q : List QEv) (e : Ev) :
    enqueue suppressed fL fI now q e =
      if enqueueDrops suppressed fL fI e then q else q ++ [⟨now, e⟩] := by
  unfold enqueue enqueueDrops
  rcases hd : e.dest with _ | d
  · by_cases h1 : e.src ∈ suppressed
    · simp [h1, hd]
    · by_cases h2 : (ignore fL e.src || ignore fI e.src) = true <;>
        simp [h1, h2, hd]
  · by_cases h1 : e.src ∈ suppressed
    · simp [h1, hd]
    · by_cases h2 : (ignore fL e.src || ignore fI e.src) = true
      · simp [h1, h2, hd]
      · by_cases h3 : (ignore fL d || ignore fI d) = true <;>
          simp [h1, h2, hd, h3]

/-- C6: for every filter built by `BaseTree.__init__` and every path,
`ignore` returns true precisely when some ignore regex matches, or the
include set is non-empty and no include regex matches; and the two
built-in ignore matchers (the `.com-apple-bird` and `.DS_Store`
patterns) are always members of the ignore set. -/
theorem ignore_filter_rule (ui uc : List (String → Bool)) (p : String) :
    (builtinBird ∈ (mkFilter ui uc).ignoreRegexes
      ∧ builtinDSStore ∈ (mkFilter ui uc).ignoreRegexes)
    ∧ (ignore (mkFilter ui uc) p = true ↔
        ((∃ r ∈ (mkFilter ui uc).ignoreRegexes, r p = true)
          ∨ ((mkFilter ui uc).includeRegexes ≠ []
              ∧ ∀ r ∈ (mkFilter ui uc).includeRegexes, r p = false))) := by
  refine ⟨⟨by simp [mkFilter], by simp [mkFilter]⟩, ?_⟩
  unfold ignore
  by_cases h1 : (mkFilter ui uc).ignoreRegexes.any (fun r => r p) = true
  · simp only [h1, if_true, true_iff]
    exact Or.inl (by simpa using List.any_eq_true.mp h1)
  · rw [if_neg (by simpa using h1)]
    by_cases h2 : (mkFilter ui uc).includeRegexes.isEmpty
    · simp only [h2, if_true]
      constructor
      · intro h; exact absurd h (by simp)
      · rintro (⟨r, hr, hrp⟩ | ⟨hne, _⟩)
        · exact absurd (List.any_eq_true.mpr ⟨r, hr, hrp⟩) (by simpa using h1)
        · exact absurd (List.isEmpty_iff.mp h2) hne
    · rw [if_neg h2]
      by_cases h3 : (mkFilter ui uc).includeRegexes.any (fun r => r p) = true
      · simp only [h3, if_true]
        constructor
        · intro h; exact absurd h (by simp)
        · rintro (⟨r, hr, hrp⟩ | ⟨_, hall⟩)
          · exact absurd (List.any_eq_true.mpr ⟨r, hr, hrp⟩) (by simpa using h1)
          · obtain ⟨r, hr, hrp⟩ := List.any_eq_true.mp h3
            exact absurd (hall r hr) (by simp [hrp])
      · rw [if_neg (by simpa using h3)]
        simp only [true_iff]
        refine Or.inr ⟨by simpa [List.isEmpty_iff] using h2, ?_⟩
        intro r hr
        by_contra hrp
        exact h3 (List.any_eq_true.mpr ⟨r, hr, by simpa using hrp⟩)

/-- C6 witness: the rule applied to the empty user filter lists and a path
matching the built-in `.DS_Store` pattern. -/
theorem ignore_filter_rule_witness : ignore (mkFilter [] []) "x/y.DS_Store" = true :=
  (ignore_filter_rule [] [] "x/y.DS_Store").2.mpr
    (Or.inl ⟨builtinDSStore, by simp [mkFilter], by decide⟩)

/-- C7 counterexample: a local file of size 0 whose remote entry is absent
is uploaded by `_handle_file_modified` (`cfi is None or ...` fires
before the size test), where the claim says every event without
`local newer AND size > 0` is skipped. -/
theorem handle_file_modified_cex :
    (handleFileModified (some ⟨0, 5⟩) (some ()) none).uploadSubmitted = true
    ∧ ((⟨0, 5⟩ : LFI).size > 0 → False) := by
  decide

/-- C7 (amended): for a `FileCreated`/`FileModified` event whose local file
still exists, the handler performs `local.add` and submits an upload to
the serial pool exactly when the remote entry is absent, or the local
file is strictly newer than the remote entry and the local size is
positive; in every other case no upload is submitted. -/
theorem handle_file_modified_amended (l : LFI) (parent : Option Unit) (cfi : Option CFI) :
    (handleFileModified (some l) parent cfi).uploadSubmitted = uploadFires l cfi
    ∧ (handleFileModified (some l) parent cfi).localAddCalled = true
    ∧ (handleFileModified (some l) parent cfi).uploadPool
        = (if uploadFires l cfi then some Pool.serial else none) := by
  cases cfi with
  | none => simp [handleFileModified, fmAfterGuard, uploadFires]
  | some c =>
    by_cases h : (decide (l.mtime > c.mtime) && decide (l.size > 0)) = true <;>
      simp [handleFileModified, fmAfterGuard, uploadFires, h]

/-- C8 counterexample: on a platform that is neither Linux nor Darwin,
`_round_seconds` returns the timestamp unchanged, so a stat mtime with
250000 microseconds is stored with non-zero microseconds, where the
claim says every platform stores whole seconds. -/
theorem round_seconds_other_platform_cex :
    (localFileInfoOfStat .other ⟨10, ⟨100, 250000⟩, none, ⟨90, 5⟩⟩).modified_time.micro ≠ 0 := by
  decide

/-- C8 (amended): on Linux and Darwin the stored `modified_time` and
`created_time` have zero microseconds; on Linux the rounding equals
adding half a second before truncation, on Darwin it is plain
truncation.  On any other platform the timestamps are stored unrounded
(see the counterexample). -/
theorem round_seconds_amended (plat : Platform) (st : StatResult)
    (h : plat = .linux ∨ plat = .darwin) :
    (localFileInfoOfStat plat st).modified_time.micro = 0
    ∧ (localFileInfoOfStat plat st).created_time.micro = 0
    ∧ (plat = .linux →
        (localFileInfoOfStat plat st).modified_time = truncateMT (addHalfSec st.st_mtime))
    ∧ (plat = .darwin →
        (localFileInfoOfStat plat st).modified_time = truncateMT st.st_mtime) := by
  have key : ∀ dt : MicroTime, round_seconds .linux dt = truncateMT (addHalfSec dt) := by
    intro dt
    by_cases hm : dt.micro ≥ 500000 <;>
      simp [round_seconds, addHalfSec, truncateMT, hm]
  rcases h with h | h <;> subst h
  · refine ⟨?_, ?_, fun _ => key st.st_mtime, by simp⟩
    · rw [show (localFileInfoOfStat .linux st).modified_time
          = round_seconds .linux st.st_mtime from rfl, key]
      rfl
    · rcases hb : st.st_birthtime with _ | b <;>
        simp [localFileInfoOfStat, hb, key, truncateMT]
  · refine ⟨by simp [localFileInfoOfStat, round_seconds], ?_, by simp, fun _ => rfl⟩
    rcases hb : st.st_birthtime with _ | b <;>
      simp [localFileInfoOfStat, hb, round_seconds]

/-- C8 witness: the amended rounding rule applied on Linux to a stat entry
with 600000 microseconds. -/
theorem round_seconds_amended_witness :
    (localFileInfoOfStat .linux ⟨10, ⟨100, 600000⟩, none, ⟨90, 0⟩⟩).modified_time.micro = 0 :=
  (round_seconds_amended .linux ⟨10, ⟨100, 600000⟩, none, ⟨90, 0⟩⟩ (Or.inl rfl)).1

/-- C9: a successful result is never resubmitted; a failed attempt run
with retry budget `c` stores `c - 1` as its remaining-retries count;
when that count is positive the retry closure is resubmitted carrying
exactly that decremented count, to the parallel pool for a Download and
to the serial pool for every other kind; when the count is not positive
nothing is resubmitted (the handler gives up). -/
theorem retry_resubmission_rule (k : AKind) (c : Int) :
    handleActionResult (attemptResult k false c) = none
    ∧ (attemptResult k true c).retries = c - 1
    ∧ (1 < c → handleActionResult (attemptResult k true c)
        = some ((if k = .download then Pool.parallel else Pool.serial), c - 1))
    ∧ (c ≤ 1 → handleActionResult (attemptResult k true c) = none) := by
  refine ⟨by simp [attemptResult, handleActionResult], by simp [attemptResult], ?_, ?_⟩
  · intro hc
    have h : c - 1 > 0 := by omega
    simp [attemptResult, handleActionResult, h]
  · intro hc
    have h : ¬ (c - 1 > 0) := by omega
    simp [attemptResult, handleActionResult, h]

/-- C9 witness: a failed download with budget 3 is resubmitted on the
parallel pool with count 2; a failed upload with budget 1 (stored count
0) is not resubmitted; a successful mkdir is not resubmitted. -/
theorem retry_resubmission_rule_witness :
    handleActionResult (attemptResult AKind.download true 3) = some (Pool.parallel, 2)
    ∧ handleActionResult (attemptResult AKind.upload true 1) = none
    ∧ handleActionResult (attemptResult AKind.mkdir false 5) = none := by
  refine ⟨?_, ?_, ?_⟩
  · simpa using (retry_resubmission_rule AKind.download 3).2.2.1 (by norm_num)
  · exact (retry_resubmission_rule AKind.upload 1).2.2.2 (by norm_num)
  · exact (retry_resubmission_rule AKind.mkdir 5).1

/-- C10: for `delete`, `rename` and `move`, when the remote call raises the
path map is returned exactly as it was and, provided the operation's
entry guards held (so the remote call was actually attempted), the
result is a failed `ActionResult`; a successful result can only arise
from a non-raising remote call, so the map is mutated only after the
remote call returns successfully. -/
theorem mutation_atomicity (m : List (String × RInfo)) (p d old new : String) :
    ((deleteOp m p true).1 = m ∧ (renameOp m old new true).1 = m
      ∧ (moveOp m p d true).1 = m)
    ∧ ((lookupK m (parentPath p)).isSome ∧ (lookupK m p).isSome →
        (deleteOp m p true).2 = .failed)
    ∧ ((lookupK m old).isSome → (renameOp m old new true).2 = .failed)
    ∧ ((lookupK m p).isSome ∧ (lookupK m (parentPath d)).isSome →
        (moveOp m p d true).2 = .failed)
    ∧ (∀ b, (deleteOp m p b).2 = .ok → b = false)
    ∧ (∀ b, (renameOp m old new b).2 = .ok → b = false)
    ∧ (∀ b, (moveOp m p d b).2 = .ok → b = false) := by
  rcases h1 : lookupK m (parentPath p) with _ | v1 <;>
    rcases h2 : lookupK m p with _ | v2 <;>
      rcases h3 : lookupK m old with _ | v3 <;>
        rcases h4 : lookupK m (parentPath d) with _ | v4 <;>
          refine ⟨⟨?_, ?_, ?_⟩, ?_, ?_, ?_, ?_, ?_, ?_⟩ <;>
            simp [deleteOp, renameOp, moveOp, h1, h2, h3, h4]

/-- C10 witness: deleting the file `"a"` from a map holding its parent and
its record, with a raising remote call, leaves the map intact and
returns a failed result. -/
theorem mutation_atomicity_witness :
    (deleteOp [(".", .folder 3 0), ("a", RInfo.file)] "a" true).1
        = [(".", .folder 3 0), ("a", RInfo.file)]
    ∧ (deleteOp [(".", .folder 3 0), ("a", RInfo.file)] "a" true).2 = .failed := by
  refine ⟨(mutation_atomicity [(".", .folder 3 0), ("a", RInfo.file)] "a" "x" "o" "n").1.1, ?_⟩
  exact (mutation_atomicity [(".", .folder 3 0), ("a", RInfo.file)] "a" "x" "o" "n").2.1
    (by decide)

end Icloudds
